import Mathlib

set_option autoImplicit false

/-!
Verification development for the userver framework fragment: the yaml-config
schema parser (src/core/src/yaml_config/impl/schema.cpp), the wait-list
synchronization primitive (src/core/src/engine/wait_list_base.hpp) and the
per-task request-deadline registry
(src/core/src/server/request/request_deadline_info_test.cpp).
-/

namespace YamlConfig

/-- Field types of a config schema, from enum FieldType used by
yaml_config::impl (schema.cpp). -/
inductive FieldType where
  | kInt
  | kString
  | kBool
  | kDouble
  | kObject
  | kArray
  deriving DecidableEq, Repr

/-- The name-to-type table kNamesToTypes from schema.cpp, lines 14-17. -/
def kNamesToTypes : List (String × FieldType) :=
  [("integer", FieldType.kInt), ("string", FieldType.kString),
   ("boolean", FieldType.kBool), ("double", FieldType.kDouble),
   ("object", FieldType.kObject), ("array", FieldType.kArray)]

/-- The six recognized type names, the keys of kNamesToTypes. -/
def kTypeNames : List String :=
  kNamesToTypes.map Prod.fst

/-- ToString from schema.cpp, lines 66-83: the switch over FieldType.
The default branch (UINVARIANT(false)) is unreachable because every
enumerator is covered. -/
def ToString : FieldType → String
  | FieldType.kInt => "integer"
  | FieldType.kString => "string"
  | FieldType.kBool => "boolean"
  | FieldType.kDouble => "double"
  | FieldType.kObject => "object"
  | FieldType.kArray => "array"

/-- Parse(FieldType) from schema.cpp, lines 85-98, applied to the string
contents of the yaml node: looks the string up in kNamesToTypes and throws
a runtime_error when it is absent. -/
def ParseFieldType (s : String) : Except String FieldType :=
  match kNamesToTypes.lookup s with
  | some t => Except.ok t
  | none => Except.error ("Incorrect schema. Field type must be one of the six type names, but another was given: " ++ s)

end YamlConfig

namespace YamlConfig

/-- A yaml document node as seen by the schema parser: a missing member,
a scalar, or a mapping given as an association list of members. -/
inductive YamlValue where
  | missing
  | scalar (s : String)
  | mapping (fields : List (String × YamlValue))

/-- Schema from schema.hpp as populated by Parse(Schema) in schema.cpp:
path, type, description, optional defaultDescription, optional properties
(a map from names to sub-schemas) and an optional items sub-schema. -/
inductive Schema where
  | mk (path : String) (type : FieldType) (description : String)
       (default_description : Option String)
       (properties : Option (List (String × Schema)))
       (items : Option Schema)

def Schema.path : Schema → String
  | Schema.mk p _ _ _ _ _ => p

def Schema.type : Schema → FieldType
  | Schema.mk _ t _ _ _ _ => t

def Schema.description : Schema → String
  | Schema.mk _ _ d _ _ _ => d

def Schema.default_description : Schema → Option String
  | Schema.mk _ _ _ dd _ _ => dd

def Schema.properties : Schema → Option (List (String × Schema))
  | Schema.mk _ _ _ _ props _ => props

def Schema.items : Schema → Option Schema
  | Schema.mk _ _ _ _ _ its => its

/-- Member access yaml[name]: the member when present, a missing node
otherwise. -/
def getField (fields : List (String × YamlValue)) (name : String) : YamlValue :=
  match fields.find? (fun p => p.1 == name) with
  | some p => p.2
  | none => YamlValue.missing

/-- As a std::string: throws on a missing member (MemberMissingException)
and on a non-scalar node (TypeMismatchException). -/
def asString : YamlValue → Except String String
  | YamlValue.scalar s => Except.ok s
  | YamlValue.missing => Except.error "member missing"
  | YamlValue.mapping _ => Except.error "type mismatch: expected a scalar"

/-- As a std::optional of std::string: a missing member parses to nullopt. -/
def asOptString : YamlValue → Except String (Option String)
  | YamlValue.missing => Except.ok none
  | YamlValue.scalar s => Except.ok (some s)
  | YamlValue.mapping _ => Except.error "type mismatch: expected a scalar"

/-- The allowed schema field names kSchemaFields from schema.cpp,
lines 19-20. -/
def kSchemaFields : List String :=
  ["type", "description", "defaultDescription", "items", "properties"]

/-- CheckFieldsNames from schema.cpp, lines 22-32: every member name of the
schema node must be one of kSchemaFields, otherwise a runtime_error is
thrown at the first offender. -/
def checkFieldsNames (fields : List (String × YamlValue)) : Except String Unit :=
  match fields.find? (fun p => !(kSchemaFields.contains p.1)) with
  | some p => Except.error ("Schema field name must be one of the allowed names, but another was given: " ++ p.1)
  | none => Except.ok ()

/-- CheckSchemaStructure from schema.cpp, lines 34-62: items only on arrays,
properties only on objects, objects must have properties, arrays must have
items; otherwise a runtime_error is thrown. -/
def checkSchemaStructure (s : Schema) : Except String Unit :=
  if s.items.isSome ∧ s.type ≠ FieldType.kArray then
    Except.error ("Schema field " ++ s.path ++ " can not have field items, because its type is not array")
  else if s.properties.isSome ∧ s.type ≠ FieldType.kObject then
    Except.error ("Schema field " ++ s.path ++ " can not have field properties, because its type is not object")
  else if s.type = FieldType.kObject then
    if ¬ s.properties.isSome then
      Except.error ("Schema field " ++ s.path ++ " of type object must have field properties")
    else Except.ok ()
  else if s.type = FieldType.kArray then
    if ¬ s.items.isSome then
      Except.error ("Schema field " ++ s.path ++ " of type array must have field items")
    else Except.ok ()
  else Except.ok ()

/-- Final step of Parse(Schema): run CheckSchemaStructure on the assembled
result and return it. -/
def finishSchema (r : Schema) : Except String Schema :=
  match checkSchemaStructure r with
  | Except.ok _ => Except.ok r
  | Except.error e => Except.error e

/-- Parse(Schema) from schema.cpp, lines 100-118: reads type, description,
defaultDescription, properties and items from the yaml node (in that
order), then CheckFieldsNames and CheckSchemaStructure. Sub-schemas of a
properties mapping and of items are parsed recursively (the SchemaPtr
parses). The Nat argument is recursion fuel bounding the nesting depth of
the document; any fuel at least the document depth gives the function's
value. -/
def parseSchema : Nat → String → YamlValue → Except String Schema
  | 0, _, _ => Except.error "schema nesting too deep"
  | Nat.succ fuel, path, YamlValue.mapping fields =>
    (asString (getField fields "type")).bind fun tys =>
    (ParseFieldType tys).bind fun ty =>
    (asString (getField fields "description")).bind fun desc =>
    (asOptString (getField fields "defaultDescription")).bind fun dd =>
    (match getField fields "properties" with
     | YamlValue.missing => Except.ok none
     | YamlValue.scalar _ => Except.error "type mismatch: expected a mapping of sub-schemas"
     | YamlValue.mapping pf =>
       (pf.foldr
         (fun (p : String × YamlValue) (acc : Except String (List (String × Schema))) =>
           (parseSchema fuel (path ++ "." ++ p.1) p.2).bind fun sub =>
           acc.map fun l => (p.1, sub) :: l)
         (Except.ok [])).map some).bind fun props =>
    (match getField fields "items" with
     | YamlValue.missing => Except.ok (none : Option Schema)
     | v => (parseSchema fuel (path ++ ".items") v).map some).bind fun its =>
    (checkFieldsNames fields).bind fun _ =>
    finishSchema (Schema.mk path ty desc dd props its)
  | Nat.succ _, _, _ => Except.error "type mismatch: schema node must be a mapping"

/-- Structural invariant checked by CheckSchemaStructure: properties present
exactly on objects, items present exactly on arrays. -/
def SchemaOk (s : Schema) : Prop :=
  (s.properties.isSome ↔ s.type = FieldType.kObject) ∧
  (s.items.isSome ↔ s.type = FieldType.kArray)

theorem except_bind_ok {ε α β : Type} {x : Except ε α} {f : α → Except ε β} {b : β}
    (h : x.bind f = Except.ok b) : ∃ a, x = Except.ok a ∧ f a = Except.ok b := by
  cases x with
  | ok a => exact ⟨a, rfl, h⟩
  | error e => simp [Except.bind] at h

theorem checkSchemaStructure_ok {s : Schema} (h : checkSchemaStructure s = Except.ok ()) :
    SchemaOk s := by
  unfold checkSchemaStructure at h
  constructor
  · constructor
    · intro hp
      by_cases hi : s.items.isSome ∧ s.type ≠ FieldType.kArray
      · simp [hi] at h
      · simp [hi] at h
        by_cases ht : s.type = FieldType.kObject
        · exact ht
        · simp [hp, ht] at h
    · intro ht
      by_cases hi : s.items.isSome ∧ s.type ≠ FieldType.kArray
      · simp [hi] at h
      · simp [hi] at h
        by_cases hp : s.properties.isSome
        · exact hp
        · simp [ht, hp] at h
  · constructor
    · intro hi
      by_cases ht : s.type = FieldType.kArray
      · exact ht
      · simp [hi, ht] at h
    · intro ht
      by_cases hi : s.items.isSome ∧ s.type ≠ FieldType.kArray
      · exact absurd ht hi.2
      · simp [hi] at h
        have hto : s.type ≠ FieldType.kObject := by
          intro hc
          rw [hc] at ht
          cases ht
        by_cases hp : s.properties.isSome ∧ s.type ≠ FieldType.kObject
        · simp [hp] at h
        · simp [hp, hto, ht] at h
          by_cases hii : s.items.isSome
          · exact hii
          · by_cases hpp : s.properties.isSome <;> simp [hii, hpp] at h

theorem finishSchema_ok {r s : Schema} (h : finishSchema r = Except.ok s) :
    r = s ∧ checkSchemaStructure s = Except.ok () := by
  unfold finishSchema at h
  cases hc : checkSchemaStructure r with
  | ok u =>
    rw [hc] at h
    cases h
    cases u
    exact ⟨rfl, hc⟩
  | error e =>
    rw [hc] at h
    cases h

theorem lookup_none_of_not_key {β : Type} (s : String) (l : List (String × β))
    (h : s ∉ l.map Prod.fst) : l.lookup s = none := by
  induction l with
  | nil => rfl
  | cons p rest ih =>
    simp only [List.map_cons, List.mem_cons, not_or] at h
    cases p with
    | mk k b =>
      have hk : (s == k) = false := by
        simp only [beq_eq_false_iff_ne, ne_eq]
        exact h.1
      simp [List.lookup, hk, ih h.2]

/-- C9: parsing the string produced by ToString yields the original FieldType
back (Parse after ToString is the identity on the six enumerators), and
Parse throws a runtime_error for every string outside the six type names. -/
theorem fieldType_roundtrip_and_reject :
    (∀ t : FieldType, ParseFieldType (ToString t) = Except.ok t) ∧
    (∀ s : String, s ∉ kTypeNames → ∃ e, ParseFieldType s = Except.error e) := by
  constructor
  · intro t
    cases t <;> rfl
  · intro s hs
    refine ⟨"Incorrect schema. Field type must be one of the six type names, but another was given: " ++ s, ?_⟩
    unfold ParseFieldType
    rw [lookup_none_of_not_key s kNamesToTypes hs]

/-- Witness for C9 at FieldType.kInt and at the unknown name float. -/
theorem fieldType_roundtrip_and_reject_witness :
    ParseFieldType (ToString FieldType.kInt) = Except.ok FieldType.kInt ∧
    ∃ e, ParseFieldType "float" = Except.error e :=
  ⟨fieldType_roundtrip_and_reject.1 FieldType.kInt,
   fieldType_roundtrip_and_reject.2 "float" (by decide)⟩

/-- C10: every Schema value returned by Parse satisfies the structural
invariant that properties is present iff the type is object and items is
present iff the type is array; inputs that would violate it make Parse
throw instead of returning. -/
theorem parseSchema_structural_invariant (fuel : Nat) (path : String) (y : YamlValue) (s : Schema)
    (h : parseSchema fuel path y = Except.ok s) : SchemaOk s := by
  cases fuel with
  | zero => simp [parseSchema] at h
  | succ n =>
    cases y with
    | missing => simp [parseSchema] at h
    | scalar str => simp [parseSchema] at h
    | mapping fields =>
      unfold parseSchema at h
      obtain ⟨tys, _, h⟩ := except_bind_ok h
      obtain ⟨ty, _, h⟩ := except_bind_ok h
      obtain ⟨desc, _, h⟩ := except_bind_ok h
      obtain ⟨dd, _, h⟩ := except_bind_ok h
      obtain ⟨props, _, h⟩ := except_bind_ok h
      obtain ⟨its, _, h⟩ := except_bind_ok h
      obtain ⟨u, _, h⟩ := except_bind_ok h
      obtain ⟨heq, hc⟩ := finishSchema_ok h
      exact checkSchemaStructure_ok hc

/-- A concrete well-formed schema document. -/
def sampleSchemaYaml : YamlValue :=
  YamlValue.mapping
    [("type", YamlValue.scalar "integer"), ("description", YamlValue.scalar "d")]

/-- Witness for C10: the sample document parses and its result satisfies
the invariant. -/
theorem parseSchema_structural_invariant_witness :
    SchemaOk (Schema.mk "" FieldType.kInt "d" none none none) :=
  parseSchema_structural_invariant 1 "" sampleSchemaYaml
    (Schema.mk "" FieldType.kInt "d" none none none) (by rfl)

end YamlConfig

namespace Engine

/-- Monotonic time, abstracted as a natural number of clock ticks. -/
abbrev Time := Nat

/-- Modelled from the spec: engine::Deadline is a monotonic timestamp or
none (spec 3, RequestDeadlineInfo attributes); the implementation is not
under src. -/
structure Deadline where
  time : Option Time
  deriving DecidableEq, Repr

def Deadline.GetDeadline (d : Deadline) : Option Time :=
  d.time

end Engine

namespace Server.Request

/-- Modelled from the spec: server::request::RequestDeadlineInfo carries a
start_time (monotonic timestamp when the unit of work began) and a deadline
(spec 3); the implementation is not under src, only its test. -/
structure RequestDeadlineInfo where
  start_time : Engine.Time
  deadline : Engine.Deadline
  deriving DecidableEq, Repr

def RequestDeadlineInfo.GetStartTime (i : RequestDeadlineInfo) : Engine.Time :=
  i.start_time

def RequestDeadlineInfo.GetDeadline (i : RequestDeadlineInfo) : Engine.Deadline :=
  i.deadline

/-- The task-local deadline slot: at most one RequestDeadlineInfo is active
per task at a time (spec 3, 4.3). -/
abbrev DeadlineSlot := Option RequestDeadlineInfo

/-- Modelled from the spec: SetCurrentRequestDeadlineInfo fails
(asserts/aborts) if a RequestDeadlineInfo is already active for the current
task, otherwise it stores the info in the task-local slot (spec 4.3, 7);
the implementation is not under src, only its test. The error case models
the process-terminating assertion. -/
def SetCurrentRequestDeadlineInfo (slot : DeadlineSlot) (info : RequestDeadlineInfo) :
    Except String DeadlineSlot :=
  match slot with
  | some _ => Except.error "assertion failed: a RequestDeadlineInfo is already active"
  | none => Except.ok (some info)

/-- Modelled from the spec: GetCurrentRequestDeadlineInfo fails if none is
active (spec 4.3); the implementation is not under src, only its test. -/
def GetCurrentRequestDeadlineInfo (slot : DeadlineSlot) : Except String RequestDeadlineInfo :=
  match slot with
  | some info => Except.ok info
  | none => Except.error "assertion failed: no RequestDeadlineInfo is active"

/-- Modelled from the spec: GetCurrentRequestDeadlineInfoUnchecked is a
non-failing probe returning absent if none is active (spec 4.3); the
implementation is not under src, only its test. -/
def GetCurrentRequestDeadlineInfoUnchecked (slot : DeadlineSlot) : Option RequestDeadlineInfo :=
  slot

/-- Modelled from the spec: ResetCurrentRequestDeadlineInfo clears the
task-local slot (spec 4.3); the implementation is not under src, only its
test. -/
def ResetCurrentRequestDeadlineInfo (_slot : DeadlineSlot) : DeadlineSlot :=
  none

end Server.Request

namespace Engine

/-- Modelled from the spec: engine::GetCurrentTaskInheritedDeadlineUnchecked
returns the deadline portion of the active RequestDeadlineInfo, or absent
(spec 6); the implementation is not under src, only its test. -/
def GetCurrentTaskInheritedDeadlineUnchecked (slot : Server.Request.DeadlineSlot) :
    Option Deadline :=
  slot.map Server.Request.RequestDeadlineInfo.GetDeadline

end Engine

namespace Server.Request

/-- C3: for every RequestDeadlineInfo, Set then Get on the same task returns
an info whose start time and deadline equal the ones that were set. -/
theorem requestDeadlineInfo_set_get_roundtrip (start : Engine.Time) (dl : Engine.Deadline) :
    ∃ slot', SetCurrentRequestDeadlineInfo none ⟨start, dl⟩ = Except.ok slot' ∧
      ∃ info, GetCurrentRequestDeadlineInfo slot' = Except.ok info ∧
        info.GetStartTime = start ∧ info.GetDeadline = dl :=
  ⟨some ⟨start, dl⟩, rfl, ⟨start, dl⟩, rfl, rfl, rfl⟩

/-- C4: whenever no RequestDeadlineInfo is active, both before any Set and
after a Reset, the unchecked probe returns absent and never fails. -/
theorem unchecked_absent_when_inactive :
    GetCurrentRequestDeadlineInfoUnchecked none = none ∧
    ∀ slot : DeadlineSlot,
      GetCurrentRequestDeadlineInfoUnchecked (ResetCurrentRequestDeadlineInfo slot) = none :=
  ⟨rfl, fun _ => rfl⟩

/-- C5: a second SetCurrentRequestDeadlineInfo before a Reset fails with the
process-terminating assertion; it neither overwrites nor merges. -/
theorem set_twice_asserts (active info : RequestDeadlineInfo) :
    ∃ e, SetCurrentRequestDeadlineInfo (some active) info = Except.error e :=
  ⟨"assertion failed: a RequestDeadlineInfo is already active", rfl⟩

/-- C6: GetCurrentTaskInheritedDeadlineUnchecked returns absent when no
RequestDeadlineInfo is active, and after a successful Set it returns a
value whose deadline equals the deadline of the info that was set. -/
theorem inherited_deadline_unchecked_correct :
    Engine.GetCurrentTaskInheritedDeadlineUnchecked none = none ∧
    ∀ (start : Engine.Time) (dl : Engine.Deadline),
      ∃ slot', SetCurrentRequestDeadlineInfo none ⟨start, dl⟩ = Except.ok slot' ∧
        ∃ d, Engine.GetCurrentTaskInheritedDeadlineUnchecked slot' = some d ∧
          d = dl :=
  ⟨rfl, fun start dl => ⟨some ⟨start, dl⟩, rfl, dl, rfl, rfl⟩⟩

end Server.Request

namespace Engine

/-- Outcome reported by a Suspend call to its caller (spec 4.1, 6): woken
by an explicit wakeup, timed out by deadline expiry, or cancelled. -/
inductive SleepOutcome where
  | woken
  | timedOut
  | cancelled
  deriving DecidableEq, Repr

/-- Wake paths that race to resume a suspended context, each delivered
under the wait list's Lock (spec 4.1, 5): an explicit WakeupOne, the
deadline-expiry timer, and external cancellation. -/
inductive WakeEvent where
  | wakeupOne
  | deadlineExpiry
  | cancel
  deriving DecidableEq, Repr

/-- The outcome each wake path reports at the suspend call site. -/
def WakeEvent.outcome : WakeEvent → SleepOutcome
  | WakeEvent.wakeupOne => SleepOutcome.woken
  | WakeEvent.deadlineExpiry => SleepOutcome.timedOut
  | WakeEvent.cancel => SleepOutcome.cancelled

/-- State of one suspended context: whether it is still registered on its
wait list, and the single outcome slot its Suspend call will report. -/
structure ParkState where
  inQueue : Bool
  outcome : Option SleepOutcome
  deriving DecidableEq, Repr

/-- Modelled from the spec: one wake path running its Lock-guarded critical
section (spec 4.1, 5). It checks, under the Lock, whether the context is
still registered; the first path removes it and records its outcome, any
later path finds it absent and is a no-op. Suspend's implementation and
the concrete wait lists are not under src, only wait_list_base.hpp. -/
def step (s : ParkState) (e : WakeEvent) : ParkState :=
  if s.inQueue then { inQueue := false, outcome := some e.outcome } else s

/-- Runs the wake paths in the order the Lock linearizes them. -/
def run (s : ParkState) (es : List WakeEvent) : ParkState :=
  es.foldl step s

/-- The state right after a context registers on a wait list. -/
def parked : ParkState :=
  { inQueue := true, outcome := none }

/-- Modelled from the spec: Suspend registers the calling context, yields,
and reports a single outcome once a wake path fires; a task already marked
cancelled returns immediately with the cancellation result without waiting
(spec 4.1, 5, 7). The event list is the sequence of wake paths the Lock
linearizes while the context is parked. -/
def Suspend (cancelRequested : Bool) (es : List WakeEvent) : ParkState :=
  if cancelRequested then { inQueue := false, outcome := some SleepOutcome.cancelled }
  else run parked es

theorem step_of_not_inQueue {s : ParkState} (h : s.inQueue = false) (e : WakeEvent) :
    step s e = s := by
  simp [step, h]

theorem run_of_not_inQueue {s : ParkState} (h : s.inQueue = false) (es : List WakeEvent) :
    run s es = s := by
  induction es with
  | nil => rfl
  | cons e rest ih =>
    show run (step s e) rest = s
    rw [step_of_not_inQueue h e]
    exact ih

theorem run_parked_cons (e : WakeEvent) (rest : List WakeEvent) :
    run parked (e :: rest) = { inQueue := false, outcome := some e.outcome } := by
  show run (step parked e) rest = _
  have hs : step parked e = { inQueue := false, outcome := some e.outcome } := rfl
  rw [hs]
  exact run_of_not_inQueue rfl rest

/-- C1: every Suspend call that returns reports exactly one outcome from
the set of woken, timed-out and cancelled: never zero outcomes and never
more than one, even when further wake paths fire afterwards. -/
theorem suspend_exactly_one_outcome (c : Bool) (es : List WakeEvent)
    (h : c = true ∨ es ≠ []) :
    ∃ o : SleepOutcome,
      (Suspend c es).outcome = some o ∧
      (o = SleepOutcome.woken ∨ o = SleepOutcome.timedOut ∨ o = SleepOutcome.cancelled) ∧
      (∀ o', (Suspend c es).outcome = some o' → o' = o) ∧
      (∀ extra, (run (Suspend c es) extra).outcome = some o) := by
  cases c with
  | true =>
    refine ⟨SleepOutcome.cancelled, rfl, Or.inr (Or.inr rfl), ?_, ?_⟩
    · intro o' ho'
      cases ho'
      rfl
    · intro extra
      rw [run_of_not_inQueue rfl extra]
      rfl
  | false =>
    cases es with
    | nil => cases h with
      | inl hc => cases hc
      | inr hn => exact absurd rfl hn
    | cons e rest =>
      have hrun : Suspend false (e :: rest) = { inQueue := false, outcome := some e.outcome } := by
        show run parked (e :: rest) = _
        exact run_parked_cons e rest
      refine ⟨e.outcome, by rw [hrun], ?_, ?_, ?_⟩
      · cases e
        · exact Or.inl rfl
        · exact Or.inr (Or.inl rfl)
        · exact Or.inr (Or.inr rfl)
      · intro o' ho'
        rw [hrun] at ho'
        cases ho'
        rfl
      · intro extra
        rw [hrun, run_of_not_inQueue rfl extra]

/-- Witness for C1 with no prior cancellation and a single explicit
wakeup. -/
theorem suspend_exactly_one_outcome_witness :
    ∃ o : SleepOutcome,
      (Suspend false [WakeEvent.wakeupOne]).outcome = some o ∧
      (o = SleepOutcome.woken ∨ o = SleepOutcome.timedOut ∨ o = SleepOutcome.cancelled) ∧
      (∀ o', (Suspend false [WakeEvent.wakeupOne]).outcome = some o' → o' = o) ∧
      (∀ extra, (run (Suspend false [WakeEvent.wakeupOne]) extra).outcome = some o) :=
  suspend_exactly_one_outcome false [WakeEvent.wakeupOne] (Or.inr (by decide))

/-- C2: when an explicit WakeupOne and a deadline expiry race for a parked
context, the one the Lock admits first wins and records its outcome, and
the loser is a no-op: in either order the caller observes exactly one of
woken and timed-out, never both and never neither. -/
theorem wakeupOne_deadline_race_exactly_once :
    (run parked [WakeEvent.wakeupOne, WakeEvent.deadlineExpiry]).outcome
        = some SleepOutcome.woken ∧
    step (step parked WakeEvent.wakeupOne) WakeEvent.deadlineExpiry
        = step parked WakeEvent.wakeupOne ∧
    (run parked [WakeEvent.deadlineExpiry, WakeEvent.wakeupOne]).outcome
        = some SleepOutcome.timedOut ∧
    step (step parked WakeEvent.deadlineExpiry) WakeEvent.wakeupOne
        = step parked WakeEvent.deadlineExpiry :=
  ⟨rfl, rfl, rfl, rfl⟩

/-- Modelled from the spec: every Suspend call computes its effective wake
time as the minimum of any explicit call-supplied timeout and the currently
active inherited deadline, if any (spec 4.3); Suspend's implementation is
not under src. -/
def effectiveWakeTime (timeout : Option Time) (slot : Server.Request.DeadlineSlot) :
    Option Time :=
  match timeout, (GetCurrentTaskInheritedDeadlineUnchecked slot).bind Deadline.GetDeadline with
  | none, none => none
  | some t, none => some t
  | none, some d => some d
  | some t, some d => some (min t d)

/-- C7: with an active RequestDeadlineInfo, the effective wake time of a
Suspend call is the minimum of the explicit timeout (if any) and the
inherited deadline (if any), and expiry of either fires the same
deadline-expiry path, reporting the same timed-out outcome at the suspend
call site. -/
theorem effective_wake_time_min (t start d : Time) :
    ∃ slot', Server.Request.SetCurrentRequestDeadlineInfo none ⟨start, ⟨some d⟩⟩
        = Except.ok slot' ∧
      effectiveWakeTime (some t) slot' = some (min t d) ∧
      effectiveWakeTime none slot' = some d ∧
      effectiveWakeTime (some t) none = some t ∧
      WakeEvent.outcome WakeEvent.deadlineExpiry = SleepOutcome.timedOut ∧
      (run parked [WakeEvent.deadlineExpiry]).outcome = some SleepOutcome.timedOut :=
  ⟨some ⟨start, ⟨some d⟩⟩, rfl, rfl, rfl, rfl, rfl, rfl⟩

/-- Task contexts, identified for the wait-list model by their identity
(the intrusive_ptr target of wait_list_base.hpp). -/
abbrev TaskContext := Nat

/-- Modelled from the spec: WaitListBase::Remove removes a specific context
if present and is a no-op if absent (spec 4.2); only the abstract interface
wait_list_base.hpp is under src. The wait list is the ordered list of
registered contexts and the call runs under the list's Lock, so it is a
sequential function; removal unlinks the context's single registration. -/
def Remove (w : List TaskContext) (ctx : TaskContext) : List TaskContext :=
  match w with
  | [] => []
  | c :: rest => if c = ctx then rest else c :: Remove rest ctx

theorem remove_of_not_mem {w : List TaskContext} {c : TaskContext} (h : c ∉ w) :
    Remove w c = w := by
  induction w with
  | nil => rfl
  | cons a rest ih =>
    simp only [List.mem_cons, not_or] at h
    have ha : a ≠ c := fun hac => h.1 hac.symm
    simp [Remove, ha, ih h.2]

theorem not_mem_remove {w : List TaskContext} {c : TaskContext} (h : w.Nodup) :
    c ∉ Remove w c := by
  induction w with
  | nil => simp [Remove]
  | cons a rest ih =>
    rw [List.nodup_cons] at h
    by_cases hac : a = c
    · simpa [Remove, hac] using fun hc => h.1 (hac ▸ hc)
    · simp only [Remove, if_neg hac, List.mem_cons, not_or]
      exact ⟨fun hca => hac hca.symm, ih h.2⟩

theorem mem_remove_iff {w : List TaskContext} {c x : TaskContext} (h : x ≠ c) :
    x ∈ Remove w c ↔ x ∈ w := by
  induction w with
  | nil => simp [Remove]
  | cons a rest ih =>
    by_cases hac : a = c
    · subst hac
      simp [Remove, List.mem_cons, h]
    · simp [Remove, hac, List.mem_cons, ih]

/-- C8: under the list's Lock, Remove deletes the given context when it is
registered (a registered context appears once, by the single-registration
invariant) while keeping every other context, and leaves the list
completely unchanged when the context is absent. -/
theorem remove_present_or_noop (w : List TaskContext) (c : TaskContext) :
    (w.Nodup → c ∉ Remove w c) ∧
    (∀ x, x ≠ c → (x ∈ Remove w c ↔ x ∈ w)) ∧
    (c ∉ w → Remove w c = w) :=
  ⟨fun h => not_mem_remove h, fun _ h => mem_remove_iff h, fun h => remove_of_not_mem h⟩

/-- Witness for C8 on concrete wait lists: removal of a present context and
the no-op on an absent one. -/
theorem remove_present_or_noop_witness :
    (2 : TaskContext) ∉ Remove [1, 2, 3] 2 ∧ Remove [1, 3] 2 = [1, 3] :=
  ⟨(remove_present_or_noop [1, 2, 3] 2).1 (by decide),
   (remove_present_or_noop [1, 3] 2).2.2 (by decide)⟩

end Engine
